import Mathlib

/-!
Shallow embedding of the subnet validator backend (src/src/server.ts).

JavaScript numbers that flow through JSON are modelled as rationals; the
values a division can produce at runtime (including the not-a-number result
of dividing zero by zero) are modelled by the type JsNum.  The three Mongo
collections (ValidationSession, MinerHistory, RewardUpdate) are modelled as
lists held in a store state, uuid generation as a counter, and the clock as
a natural number.  Each Express handler becomes a function from the store
state and the parsed request body to an API outcome paired with the new
state.  Request-body fields that may be absent (undefined) are Options; a
Mongoose update drops undefined values from a set-document, which the
embedding mirrors by keeping the previous stored value.
-/

/-- The result of a JavaScript floating point computation, idealized:
either an exact rational, the not-a-number value, or a signed infinity. -/
inductive JsNum where
  | num (q : ℚ)
  | nan
  | posInf
  | negInf
deriving DecidableEq, Repr

/-- JavaScript division of two ordinary numbers: division by zero gives
not-a-number when the numerator is zero and a signed infinity otherwise. -/
def jsDivQ (a b : ℚ) : JsNum :=
  if b = 0 then (if a = 0 then JsNum.nan else if 0 < a then JsNum.posInf else JsNum.negInf)
  else JsNum.num (a / b)

/-- JavaScript multiplication of a computed value by an ordinary constant. -/
def jsMul (x : JsNum) (c : ℚ) : JsNum :=
  match x with
  | JsNum.num q => JsNum.num (q * c)
  | JsNum.nan => JsNum.nan
  | JsNum.posInf => if 0 < c then JsNum.posInf else if c < 0 then JsNum.negInf else JsNum.nan
  | JsNum.negInf => if 0 < c then JsNum.negInf else if c < 0 then JsNum.posInf else JsNum.nan

/-- JavaScript addition on computed values. -/
def jsAdd : JsNum → JsNum → JsNum
  | JsNum.nan, _ => JsNum.nan
  | _, JsNum.nan => JsNum.nan
  | JsNum.num a, JsNum.num b => JsNum.num (a + b)
  | JsNum.posInf, JsNum.negInf => JsNum.nan
  | JsNum.negInf, JsNum.posInf => JsNum.nan
  | JsNum.posInf, _ => JsNum.posInf
  | _, JsNum.posInf => JsNum.posInf
  | JsNum.negInf, _ => JsNum.negInf
  | _, JsNum.negInf => JsNum.negInf

/-- JavaScript division of a computed value by an ordinary number
(the denominator in the code is always an array length). -/
def jsDivJ : JsNum → ℚ → JsNum
  | JsNum.nan, _ => JsNum.nan
  | JsNum.num a, n => jsDivQ a n
  | JsNum.posInf, n => if n < 0 then JsNum.negInf else JsNum.posInf
  | JsNum.negInf, n => if n < 0 then JsNum.posInf else JsNum.negInf

/-- The JavaScript idiom x or-else zero: absent, not-a-number and zero are
falsy and yield zero; anything else passes through. -/
def jsOr0 : Option JsNum → JsNum
  | none => JsNum.num 0
  | some JsNum.nan => JsNum.num 0
  | some (JsNum.num q) => JsNum.num q
  | some JsNum.posInf => JsNum.posInf
  | some JsNum.negInf => JsNum.negInf

/-- Session lifecycle state (the state enum of the session schema). -/
inductive SessionState where
  | pending
  | inProgress
  | completed
  | failed
deriving DecidableEq, Repr

/-- Status enum of a miner history entry. -/
inductive HistoryStatus where
  | success
  | failed
  | timeout
  | error
deriving DecidableEq, Repr

/-- The challengeInfo subdocument of a session. -/
structure ChallengeInfo where
  projectId : Option String := none
  description : Option String := none
  difficulty : Option String := none
  createdAt : Option Nat := none
  rawData : Option String := none
deriving DecidableEq, Repr

/-- The groundTruth subdocument of a session. -/
structure GroundTruthInfo where
  reportId : Option String := none
  vulnerabilities : List String := []
  criticalIssues : Option ℚ := none
  rawData : Option String := none
deriving DecidableEq, Repr

/-- The agentPerformance subdocument of a miner response. -/
structure AgentPerformance where
  executionTime : Option ℚ := none
  findingsCount : Option ℚ := none
  accuracy : Option ℚ := none
  completionStatus : Option String := none
deriving DecidableEq, Repr

/-- One element of the minerResponses array of a session. -/
structure MinerResponseDoc where
  minerUid : ℚ
  githubUrl : Option String := none
  responseTime : Option ℚ := none
  success : Option Bool := none
  errorMessage : Option String := none
  timestamp : Nat
  agentPerformance : AgentPerformance := {}
  rewardScore : Option ℚ := none
  rewardReason : Option String := none
deriving DecidableEq, Repr

/-- One element of the computedRewards array of a session. -/
structure ComputedReward where
  minerUid : ℚ
  score : ℚ
  timestamp : Nat
deriving DecidableEq, Repr

/-- The metrics subdocument of a session; every field is optional and a
stored value may be any computed number, including not-a-number. -/
structure Metrics where
  totalQueryTime : Option JsNum := none
  averageRewardScore : Option JsNum := none
  successRate : Option JsNum := none
  failureCount : Option JsNum := none
  validFindings : Option JsNum := none
deriving DecidableEq, Repr

/-- The subnetSnapshot subdocument of a session. -/
structure SubnetSnapshotInfo where
  netuid : Option ℚ := none
  block : Option ℚ := none
  activeValidators : Option ℚ := none
  activeMiners : Option ℚ := none
  totalStake : Option ℚ := none
  emissionPerBlock : Option ℚ := none
  timestamp : Option Nat := none
deriving DecidableEq, Repr

/-- One element of the validationErrors array of a session. -/
structure ValidationErrorEntry where
  stage : String
  message : String
  timestamp : Nat
  stackTrace : Option String := none
deriving DecidableEq, Repr

/-- The metadata subdocument of a session. -/
structure SessionMetadata where
  validatorAddress : Option String := none
  configVersion : Option String := none
  remarks : Option String := none
deriving DecidableEq, Repr

/-- One ValidationSession document. -/
structure SessionDoc where
  sessionId : Nat
  timestamp : Nat
  projectId : Option String := none
  projectName : Option String := none
  state : SessionState
  sampledMinerCount : ℚ
  sampledMinerUids : List ℚ
  challengeInfo : ChallengeInfo := {}
  groundTruth : GroundTruthInfo := {}
  minerResponses : List MinerResponseDoc := []
  computedRewards : List ComputedReward := []
  metrics : Metrics := {}
  subnetSnapshot : SubnetSnapshotInfo := {}
  validationErrors : List ValidationErrorEntry := []
  metadata : SessionMetadata := {}
deriving DecidableEq, Repr

/-- One MinerHistory document, as created by the miner-reward endpoint. -/
structure MinerHistoryDoc where
  minerUid : ℚ
  sessionId : Nat
  rewardScore : ℚ
  timestamp : Nat
  status : HistoryStatus
deriving DecidableEq, Repr

/-- One RewardUpdate document. -/
structure RewardUpdateDoc where
  updateId : Nat
  sessionId : Nat
  minerUids : List ℚ
  rewards : List ℚ
  timestamp : Nat
  confirmed : Bool
deriving DecidableEq, Repr

/-- The full persistent state: the three collections, the uuid source
(modelled as a counter handing out fresh identifiers) and the clock. -/
structure Store where
  sessions : List SessionDoc
  history : List MinerHistoryDoc
  rewardUpdates : List RewardUpdateDoc
  nextId : Nat
  now : Nat
deriving DecidableEq, Repr

/-- The externally visible outcome of one request: success, a 400-class
validation rejection, or a 404 not-found rejection. -/
inductive ApiResult where
  | ok
  | validationFailed
  | notFound
deriving DecidableEq, Repr

/-- Update the first element of a list satisfying a predicate, leaving the
rest unchanged; this is the effect of a Mongo findOneAndUpdate or of a
positional array update on the first match. -/
def updFirst (p : α → Bool) (f : α → α) : List α → List α
  | [] => []
  | x :: xs => if p x then f x :: xs else x :: updFirst p f xs

/-- A Mongoose set-document drops undefined values, so an absent request
field keeps the previously stored value. -/
def setOpt (v old : Option α) : Option α :=
  match v with
  | some x => some x
  | none => old

/-- An absent metric field in the completion request keeps the stored
value; a provided ordinary number overwrites it. -/
def setMet (v : Option ℚ) (old : Option JsNum) : Option JsNum :=
  match v with
  | some q => some (JsNum.num q)
  | none => old

/-- JavaScript falsiness of an optional string (undefined or empty). -/
def strFalsy : Option String → Bool
  | none => true
  | some s => s == ""

/-- Request body of POST /api/validation/start.  A missing or non-array
sampledMinerUids is modelled as none; array elements are numbers. -/
structure StartBody where
  sampledMinerCount : Option ℚ := none
  sampledMinerUids : Option (List ℚ) := none
  validatorAddress : Option String := none
  configVersion : Option String := none
deriving DecidableEq, Repr

/-- POST /api/validation/start: create a session. -/
def startValidation (σ : Store) (b : StartBody) : ApiResult × Store :=
  match b.sampledMinerUids with
  | none => (ApiResult.validationFailed, σ)
  | some uids =>
      let doc : SessionDoc :=
        { sessionId := σ.nextId
          timestamp := σ.now
          state := SessionState.pending
          sampledMinerCount :=
            match b.sampledMinerCount with
            | some c => if c = 0 then (uids.length : ℚ) else c
            | none => (uids.length : ℚ)
          sampledMinerUids := uids
          minerResponses := []
          computedRewards := []
          validationErrors := []
          metadata := { validatorAddress := b.validatorAddress
                        configVersion := b.configVersion } }
      (ApiResult.ok,
       { σ with sessions := σ.sessions ++ [doc], nextId := σ.nextId + 1 })

/-- Request body of POST /api/validation/:sessionId/challenge. -/
structure ChallengeBody where
  projectId : Option String := none
  description : Option String := none
  difficulty : Option String := none
  rawData : Option String := none
deriving DecidableEq, Repr

/-- POST /api/validation/:sessionId/challenge: record challenge data and
move the session to in-progress unconditionally. -/
def recordChallenge (σ : Store) (sid : Nat) (b : ChallengeBody) : ApiResult × Store :=
  if strFalsy b.projectId then (ApiResult.validationFailed, σ)
  else
    match σ.sessions.find? (fun s => s.sessionId == sid) with
    | none => (ApiResult.notFound, σ)
    | some _ =>
        let upd := updFirst (fun s => s.sessionId == sid)
          (fun s =>
            { s with
                state := SessionState.inProgress
                projectId := b.projectId
                challengeInfo :=
                  { projectId := b.projectId
                    description := setOpt b.description s.challengeInfo.description
                    difficulty := setOpt b.difficulty s.challengeInfo.difficulty
                    rawData := setOpt b.rawData s.challengeInfo.rawData
                    createdAt := some σ.now } })
          σ.sessions
        (ApiResult.ok, { σ with sessions := upd })

/-- Request body of POST /api/validation/:sessionId/ground-truth. -/
structure GroundTruthBody where
  reportId : Option String := none
  vulnerabilities : Option (List String) := none
  criticalIssues : Option ℚ := none
  rawData : Option String := none
deriving DecidableEq, Repr

/-- POST /api/validation/:sessionId/ground-truth. -/
def recordGroundTruth (σ : Store) (sid : Nat) (b : GroundTruthBody) : ApiResult × Store :=
  match σ.sessions.find? (fun s => s.sessionId == sid) with
  | none => (ApiResult.notFound, σ)
  | some _ =>
      let upd := updFirst (fun s => s.sessionId == sid)
        (fun s =>
          { s with
              groundTruth :=
                { reportId := setOpt b.reportId s.groundTruth.reportId
                  vulnerabilities := b.vulnerabilities.getD []
                  criticalIssues := setOpt b.criticalIssues s.groundTruth.criticalIssues
                  rawData := setOpt b.rawData s.groundTruth.rawData } })
        σ.sessions
      (ApiResult.ok, { σ with sessions := upd })

/-- Request body of POST /api/validation/:sessionId/miner-response; a
minerUid that is not a number is modelled as none. -/
structure MinerResponseBody where
  minerUid : Option ℚ := none
  githubUrl : Option String := none
  responseTime : Option ℚ := none
  success : Option Bool := none
  errorMessage : Option String := none
  agentPerformance : Option AgentPerformance := none
deriving DecidableEq, Repr

/-- POST /api/validation/:sessionId/miner-response: append one response. -/
def recordMinerResponse (σ : Store) (sid : Nat) (b : MinerResponseBody) : ApiResult × Store :=
  match b.minerUid with
  | none => (ApiResult.validationFailed, σ)
  | some uid =>
      match σ.sessions.find? (fun s => s.sessionId == sid) with
      | none => (ApiResult.notFound, σ)
      | some _ =>
          let upd := updFirst (fun s => s.sessionId == sid)
            (fun s =>
              { s with minerResponses := s.minerResponses ++
                  [{ minerUid := uid
                     githubUrl := b.githubUrl
                     responseTime := b.responseTime
                     success := b.success
                     errorMessage := b.errorMessage
                     timestamp := σ.now
                     agentPerformance := b.agentPerformance.getD {} }] })
            σ.sessions
          (ApiResult.ok, { σ with sessions := upd })

/-- Request body of POST /api/validation/:sessionId/miner-reward. -/
structure MinerRewardBody where
  minerUid : Option ℚ := none
  rewardScore : ℚ := 0
  rewardReason : Option String := none
deriving DecidableEq, Repr

/-- The compound query of the miner-reward update: the session must match
the identifier and contain a response of the given miner. -/
def rewardQuery (sid : Nat) (uid : ℚ) (s : SessionDoc) : Bool :=
  s.sessionId == sid && s.minerResponses.any (fun r => r.minerUid == uid)

/-- POST /api/validation/:sessionId/miner-reward: patch the first matching
response in place, then append one MinerHistory entry. -/
def recordMinerReward (σ : Store) (sid : Nat) (b : MinerRewardBody) : ApiResult × Store :=
  match b.minerUid with
  | none => (ApiResult.validationFailed, σ)
  | some uid =>
      match σ.sessions.find? (rewardQuery sid uid) with
      | none => (ApiResult.notFound, σ)
      | some _ =>
          let hist : MinerHistoryDoc :=
            { minerUid := uid
              sessionId := sid
              rewardScore := b.rewardScore
              timestamp := σ.now
              status := if 0 < b.rewardScore then HistoryStatus.success
                        else HistoryStatus.failed }
          let patchResp := fun (rs : List MinerResponseDoc) =>
            updFirst (fun r => r.minerUid == uid)
              (fun r =>
                { r with rewardScore := some b.rewardScore
                         rewardReason := setOpt b.rewardReason r.rewardReason })
              rs
          let upd := updFirst (rewardQuery sid uid)
            (fun s => { s with minerResponses := patchResp s.minerResponses })
            σ.sessions
          (ApiResult.ok, { σ with sessions := upd, history := σ.history ++ [hist] })

/-- Request body of POST /api/validation/:sessionId/rewards-update; an
argument that is not an array is modelled as none. -/
structure RewardsBatchBody where
  minerUids : Option (List ℚ) := none
  rewards : Option (List ℚ) := none
deriving DecidableEq, Repr

/-- The metrics object the batch endpoint assigns wholesale: it carries
only the three recomputed fields. -/
def batchMetrics (uids rewards : List ℚ) : Metrics :=
  let successCount : ℚ := ((rewards.filter (fun r => decide (0 < r))).length : ℚ)
  let n : ℚ := (uids.length : ℚ)
  { totalQueryTime := none
    successRate := some (jsMul (jsDivQ successCount n) 100)
    averageRewardScore := some (jsDivQ (rewards.foldl (· + ·) 0) n)
    failureCount := some (JsNum.num (n - successCount))
    validFindings := none }

/-- POST /api/validation/:sessionId/rewards-update: always append a
RewardUpdate log entry, then, only when the session exists, replace its
computedRewards and metrics wholesale. -/
def recordRewardsBatch (σ : Store) (sid : Nat) (b : RewardsBatchBody) : ApiResult × Store :=
  match b.minerUids, b.rewards with
  | some uids, some rewards =>
      if uids.length ≠ rewards.length then (ApiResult.validationFailed, σ)
      else
        let upd : RewardUpdateDoc :=
          { updateId := σ.nextId
            sessionId := sid
            minerUids := uids
            rewards := rewards
            timestamp := σ.now
            confirmed := false }
        let σ1 := { σ with rewardUpdates := σ.rewardUpdates ++ [upd]
                           nextId := σ.nextId + 1 }
        match σ1.sessions.find? (fun s => s.sessionId == sid) with
        | none => (ApiResult.ok, σ1)
        | some _ =>
            let upd := updFirst (fun s => s.sessionId == sid)
              (fun s =>
                { s with
                    computedRewards := (uids.zip rewards).map
                      (fun ur => { minerUid := ur.1, score := ur.2, timestamp := σ.now })
                    metrics := batchMetrics uids rewards })
              σ1.sessions
            (ApiResult.ok, { σ1 with sessions := upd })
  | _, _ => (ApiResult.validationFailed, σ)

/-- Request body of POST /api/validation/:sessionId/subnet-snapshot. -/
structure SnapshotBody where
  netuid : Option ℚ := none
  block : Option ℚ := none
  activeValidators : Option ℚ := none
  activeMiners : Option ℚ := none
  totalStake : Option ℚ := none
  emissionPerBlock : Option ℚ := none
deriving DecidableEq, Repr

/-- POST /api/validation/:sessionId/subnet-snapshot: overwrite the
snapshot; the update result is never inspected, so a missing session is a
silent success. -/
def recordSubnetSnapshot (σ : Store) (sid : Nat) (b : SnapshotBody) : ApiResult × Store :=
  match b.netuid, b.block with
  | some netuid, some block =>
      let upd := updFirst (fun s => s.sessionId == sid)
        (fun s =>
          { s with subnetSnapshot :=
              { netuid := some netuid
                block := some block
                activeValidators := setOpt b.activeValidators s.subnetSnapshot.activeValidators
                activeMiners := setOpt b.activeMiners s.subnetSnapshot.activeMiners
                totalStake := setOpt b.totalStake s.subnetSnapshot.totalStake
                emissionPerBlock := setOpt b.emissionPerBlock s.subnetSnapshot.emissionPerBlock
                timestamp := some σ.now } })
        σ.sessions
      (ApiResult.ok, { σ with sessions := upd })
  | _, _ => (ApiResult.validationFailed, σ)

/-- Request body of POST /api/validation/:sessionId/error. -/
structure LogErrorBody where
  stage : Option String := none
  message : Option String := none
  stackTrace : Option String := none
deriving DecidableEq, Repr

/-- POST /api/validation/:sessionId/error: append to validationErrors; the
update result is never inspected, so a missing session is a silent
success. -/
def logValidationError (σ : Store) (sid : Nat) (b : LogErrorBody) : ApiResult × Store :=
  if strFalsy b.stage || strFalsy b.message then (ApiResult.validationFailed, σ)
  else
    let upd := updFirst (fun s => s.sessionId == sid)
      (fun s =>
        { s with validationErrors := s.validationErrors ++
            [{ stage := b.stage.getD ""
               message := b.message.getD ""
               timestamp := σ.now
               stackTrace := b.stackTrace }] })
      σ.sessions
    (ApiResult.ok, { σ with sessions := upd })

/-- Request body of POST /api/validation/:sessionId/complete: the optional
metrics object flattened to its five optional fields. -/
structure CompleteBody where
  totalQueryTime : Option ℚ := none
  averageRewardScore : Option ℚ := none
  successRate : Option ℚ := none
  failureCount : Option ℚ := none
  validFindings : Option ℚ := none
deriving DecidableEq, Repr

/-- POST /api/validation/:sessionId/complete: set the state to completed
and patch the provided metric fields, keeping the omitted ones. -/
def completeValidation (σ : Store) (sid : Nat) (b : CompleteBody) : ApiResult × Store :=
  match σ.sessions.find? (fun s => s.sessionId == sid) with
  | none => (ApiResult.notFound, σ)
  | some _ =>
      let upd := updFirst (fun s => s.sessionId == sid)
        (fun s =>
          { s with
              state := SessionState.completed
              metrics :=
                { totalQueryTime := setMet b.totalQueryTime s.metrics.totalQueryTime
                  averageRewardScore := setMet b.averageRewardScore s.metrics.averageRewardScore
                  successRate := setMet b.successRate s.metrics.successRate
                  failureCount := setMet b.failureCount s.metrics.failureCount
                  validFindings := setMet b.validFindings s.metrics.validFindings } })
        σ.sessions
      (ApiResult.ok, { σ with sessions := upd })

/-- One repository operation, covering every mutating endpoint. -/
inductive Op where
  | start (b : StartBody)
  | challenge (sid : Nat) (b : ChallengeBody)
  | groundTruth (sid : Nat) (b : GroundTruthBody)
  | minerResponse (sid : Nat) (b : MinerResponseBody)
  | minerReward (sid : Nat) (b : MinerRewardBody)
  | rewardsBatch (sid : Nat) (b : RewardsBatchBody)
  | subnetSnapshot (sid : Nat) (b : SnapshotBody)
  | logError (sid : Nat) (b : LogErrorBody)
  | complete (sid : Nat) (b : CompleteBody)
deriving DecidableEq, Repr

/-- Whether an operation is the challenge-recording one. -/
def Op.isChallenge : Op → Bool
  | Op.challenge _ _ => true
  | _ => false

/-- Dispatch one operation against the store. -/
def applyOp (σ : Store) : Op → ApiResult × Store
  | Op.start b => startValidation σ b
  | Op.challenge sid b => recordChallenge σ sid b
  | Op.groundTruth sid b => recordGroundTruth σ sid b
  | Op.minerResponse sid b => recordMinerResponse σ sid b
  | Op.minerReward sid b => recordMinerReward σ sid b
  | Op.rewardsBatch sid b => recordRewardsBatch σ sid b
  | Op.subnetSnapshot sid b => recordSubnetSnapshot σ sid b
  | Op.logError sid b => logValidationError σ sid b
  | Op.complete sid b => completeValidation σ sid b

/-- Store well-formedness: session identifiers are pairwise distinct (the
unique index) and every identifier already handed out is below the
generator counter. -/
def StoreWF (σ : Store) : Prop :=
  (σ.sessions.map (fun s => s.sessionId)).Nodup ∧
  (∀ s ∈ σ.sessions, s.sessionId < σ.nextId) ∧
  (∀ u ∈ σ.rewardUpdates, u.updateId < σ.nextId)

/-- Insert an element into a list sorted descending by a rational key,
before the first strictly smaller key (stable for equal keys). -/
def insertDescBy (key : α → ℚ) (x : α) : List α → List α
  | [] => [x]
  | y :: ys => if key y ≤ key x then x :: y :: ys else y :: insertDescBy key x ys

/-- Sort a list descending by a rational key (insertion sort; the store
sorts aggregation results the same way up to tie order). -/
def sortDescBy (key : α → ℚ) : List α → List α
  | [] => []
  | x :: xs => insertDescBy key x (sortDescBy key xs)

/-- One group produced by the leaderboard aggregation. -/
structure LeaderGroup where
  minerUid : ℚ
  totalRewards : ℚ
  participationCount : Nat
  successCount : Nat
deriving DecidableEq, Repr

/-- The distinct miner identifiers of a history slice, in first-occurrence
order (the grouping key set). -/
def distinctUids (docs : List MinerHistoryDoc) : List ℚ :=
  docs.foldl (fun acc d => if d.minerUid ∈ acc then acc else acc ++ [d.minerUid]) []

/-- The aggregation group of one miner over a history slice. -/
def groupFor (docs : List MinerHistoryDoc) (u : ℚ) : LeaderGroup :=
  let g := docs.filter (fun d => d.minerUid == u)
  { minerUid := u
    totalRewards := (g.map (fun d => d.rewardScore)).foldl (· + ·) 0
    participationCount := g.length
    successCount := (g.filter (fun d => d.status == HistoryStatus.success)).length }

/-- Group a history slice by miner identifier. -/
def groupHistory (docs : List MinerHistoryDoc) : List LeaderGroup :=
  (distinctUids docs).map (groupFor docs)

/-- The leaderboard aggregation pipeline: keep entries inside the time
window, group by miner, sort by total rewards descending, truncate. -/
def leaderboardAgg (hist : List MinerHistoryDoc) (startDate : Nat) (limit : Nat) :
    List LeaderGroup :=
  ((sortDescBy (fun g => g.totalRewards)
      (groupHistory (hist.filter (fun d => startDate ≤ d.timestamp)))).take limit)

/-- One returned leaderboard entry. -/
structure LeaderboardEntry where
  rank : Nat
  minerUid : ℚ
  totalRewards : ℚ
  participationCount : Nat
  successCount : Nat
deriving DecidableEq, Repr

/-- Attach dense ranks by position, starting after a given count. -/
def withRanks : Nat → List LeaderGroup → List LeaderboardEntry
  | _, [] => []
  | i, g :: gs =>
      { rank := i + 1
        minerUid := g.minerUid
        totalRewards := g.totalRewards
        participationCount := g.participationCount
        successCount := g.successCount } :: withRanks (i + 1) gs

/-- GET /api/leaderboard: the ranked response list. -/
def leaderboard (hist : List MinerHistoryDoc) (startDate : Nat) (limit : Nat) :
    List LeaderboardEntry :=
  withRanks 0 (leaderboardAgg hist startDate limit)

/-- The summary object returned by GET /api/project/:projectId/summary. -/
structure ProjectSummary where
  totalValidationRuns : Nat
  successfulRuns : Nat
  failedRuns : Nat
  totalMinersQueried : ℚ
  avgRewardScore : JsNum
  lastRun : Option Nat
deriving DecidableEq, Repr

/-- GET /api/project/:projectId/summary: load the sessions of the project
sorted by time descending and fold their counters; the mean divides by the
number of sessions found with no zero guard. -/
def projectSummary (σ : Store) (pid : String) : ProjectSummary :=
  let sessions := sortDescBy (fun s => (s.timestamp : ℚ))
    (σ.sessions.filter (fun s => s.projectId == some pid))
  { totalValidationRuns := sessions.length
    successfulRuns := (sessions.filter (fun s => s.state == SessionState.completed)).length
    failedRuns := (sessions.filter (fun s => s.state == SessionState.failed)).length
    totalMinersQueried := sessions.foldl (fun acc s => acc + s.sampledMinerCount) 0
    avgRewardScore := jsDivJ
      (sessions.foldl (fun acc s => jsAdd acc (jsOr0 s.metrics.averageRewardScore)) (JsNum.num 0))
      ((sessions.length : ℚ))
    lastRun := sessions.head?.map (fun s => s.timestamp) }

theorem updFirst_eq_of_forall_not (p : α → Bool) (f : α → α) (l : List α)
    (h : ∀ x ∈ l, p x = false) : updFirst p f l = l := by
  induction l with
  | nil => rfl
  | cons x xs ih =>
      rw [updFirst, h x (List.mem_cons_self x xs)]
      simp only [Bool.false_eq_true, if_false, List.cons.injEq, true_and]
      exact ih (fun t ht => h t (List.mem_cons_of_mem x ht))

theorem updFirst_append_first (p : α → Bool) (f : α → α) (pre : List α) (s : α)
    (post : List α) (hpre : ∀ t ∈ pre, p t = false) (hs : p s = true) :
    updFirst p f (pre ++ s :: post) = pre ++ f s :: post := by
  induction pre with
  | nil => simp [updFirst, hs]
  | cons t ts ih =>
      have ht : p t = false := hpre t (List.mem_cons_self t ts)
      simp only [List.cons_append, updFirst, ht, Bool.false_eq_true, if_false,
        List.cons.injEq, true_and]
      exact ih (fun u hu => hpre u (List.mem_cons_of_mem t hu))

theorem find?_append_first (p : α → Bool) (pre : List α) (s : α) (post : List α)
    (hpre : ∀ t ∈ pre, p t = false) (hs : p s = true) :
    (pre ++ s :: post).find? p = some s := by
  induction pre with
  | nil => simp [List.find?_cons_of_pos, hs]
  | cons t ts ih =>
      have ht : p t = false := hpre t (List.mem_cons_self t ts)
      rw [List.cons_append, List.find?_cons_of_neg _ (by simp [ht])]
      exact ih (fun u hu => hpre u (List.mem_cons_of_mem t hu))

theorem updFirst_length (p : α → Bool) (f : α → α) (l : List α) :
    (updFirst p f l).length = l.length := by
  induction l with
  | nil => rfl
  | cons x xs ih =>
      rw [updFirst]
      by_cases h : p x <;> simp [h, ih]

theorem updFirst_get (p : α → Bool) (f : α → α) (l : List α) (i : Nat)
    (hi : i < l.length) (hi' : i < (updFirst p f l).length) :
    (updFirst p f l).get ⟨i, hi'⟩ = l.get ⟨i, hi⟩ ∨
    (updFirst p f l).get ⟨i, hi'⟩ = f (l.get ⟨i, hi⟩) := by
  induction l generalizing i with
  | nil => exact absurd hi (Nat.not_lt_zero i)
  | cons x xs ih =>
      by_cases h : p x
      · cases i with
        | zero => right; simp [updFirst, h]
        | succ n => left; simp [updFirst, h]
      · cases i with
        | zero => left; simp [updFirst, h]
        | succ n =>
            have hn : n < xs.length := by simpa using hi
            have hn' : n < (updFirst p f xs).length := by
              rw [updFirst_length]; exact hn
            have := ih n hn hn'
            simpa [updFirst, h] using this

theorem mem_insertDescBy (key : α → ℚ) (x : α) (l : List α) (z : α) :
    z ∈ insertDescBy key x l ↔ z = x ∨ z ∈ l := by
  induction l with
  | nil => simp [insertDescBy]
  | cons y ys ih =>
      rw [insertDescBy]
      by_cases h : key y ≤ key x
      · simp [h]
      · simp only [h, if_false, List.mem_cons, ih]
        tauto

theorem perm_insertDescBy (key : α → ℚ) (x : α) (l : List α) :
    (insertDescBy key x l).Perm (x :: l) := by
  induction l with
  | nil => simp [insertDescBy]
  | cons y ys ih =>
      rw [insertDescBy]
      by_cases h : key y ≤ key x
      · simp [h]
      · rw [if_neg h]
        exact (ih.cons y).trans (List.Perm.swap x y ys)

theorem perm_sortDescBy (key : α → ℚ) (l : List α) :
    (sortDescBy key l).Perm l := by
  induction l with
  | nil => simp [sortDescBy]
  | cons x xs ih =>
      rw [sortDescBy]
      exact (perm_insertDescBy key x (sortDescBy key xs)).trans (ih.cons x)

theorem pairwise_insertDescBy (key : α → ℚ) (x : α) (l : List α)
    (h : l.Pairwise (fun a b => key b ≤ key a)) :
    (insertDescBy key x l).Pairwise (fun a b => key b ≤ key a) := by
  induction l with
  | nil => simp [insertDescBy]
  | cons y ys ih =>
      rcases List.pairwise_cons.mp h with ⟨hy, hys⟩
      rw [insertDescBy]
      by_cases hxy : key y ≤ key x
      · rw [if_pos hxy]
        refine List.pairwise_cons.mpr ⟨?_, h⟩
        intro z hz
        rcases List.mem_cons.mp hz with rfl | hz
        · exact hxy
        · exact le_trans (hy z hz) hxy
      · rw [if_neg hxy]
        refine List.pairwise_cons.mpr ⟨?_, ih hys⟩
        intro z hz
        rcases (mem_insertDescBy key x ys z).mp hz with rfl | hz
        · exact le_of_lt (lt_of_not_le hxy)
        · exact hy z hz

theorem pairwise_sortDescBy (key : α → ℚ) (l : List α) :
    (sortDescBy key l).Pairwise (fun a b => key b ≤ key a) := by
  induction l with
  | nil => simp [sortDescBy]
  | cons x xs ih =>
      rw [sortDescBy]
      exact pairwise_insertDescBy key x _ ih

theorem withRanks_length (l : List LeaderGroup) :
    ∀ i, (withRanks i l).length = l.length := by
  induction l with
  | nil => intro i; rfl
  | cons g gs ih => intro i; simp [withRanks, ih]

theorem withRanks_rank (l : List LeaderGroup) :
    ∀ i k (hk : k < (withRanks i l).length),
      ((withRanks i l).get ⟨k, hk⟩).rank = i + k + 1 := by
  induction l with
  | nil => intro i k hk; exact absurd hk (by simp [withRanks])
  | cons g gs ih =>
      intro i k hk
      cases k with
      | zero => simp [withRanks]
      | succ n =>
          have hn : n < (withRanks (i + 1) gs).length := by
            simpa [withRanks] using hk
          have := ih (i + 1) n hn
          simp only [withRanks, List.get_cons_succ]
          rw [this]
          omega

theorem withRanks_mem (l : List LeaderGroup) :
    ∀ i x, x ∈ withRanks i l → ∃ g ∈ l, x.totalRewards = g.totalRewards := by
  induction l with
  | nil => intro i x hx; exact absurd hx (by simp [withRanks])
  | cons g gs ih =>
      intro i x hx
      rcases List.mem_cons.mp (by simpa [withRanks] using hx) with rfl | hx
      · exact ⟨g, List.mem_cons_self g gs, rfl⟩
      · obtain ⟨g', hg', he⟩ := ih (i + 1) x hx
        exact ⟨g', List.mem_cons_of_mem g hg', he⟩

theorem pairwise_withRanks (l : List LeaderGroup)
    (h : l.Pairwise (fun a b => b.totalRewards ≤ a.totalRewards)) :
    ∀ i, (withRanks i l).Pairwise (fun a b => b.totalRewards ≤ a.totalRewards) := by
  induction l with
  | nil => intro i; simp [withRanks]
  | cons g gs ih =>
      intro i
      rcases List.pairwise_cons.mp h with ⟨hg, hgs⟩
      rw [withRanks]
      refine List.pairwise_cons.mpr ⟨?_, ih hgs (i + 1)⟩
      intro e he
      obtain ⟨g', hg', he'⟩ := withRanks_mem gs (i + 1) e he
      rw [he']
      exact hg g' hg'

theorem recordRewardsBatch_found (σ : Store) (sid : Nat) (uids rewards : List ℚ)
    (pre post : List SessionDoc) (s : SessionDoc)
    (hlen : uids.length = rewards.length)
    (hsplit : σ.sessions = pre ++ s :: post)
    (hpre : ∀ t ∈ pre, (t.sessionId == sid) = false)
    (hs : s.sessionId = sid) :
    recordRewardsBatch σ sid { minerUids := some uids, rewards := some rewards } =
      (ApiResult.ok,
       { σ with
           sessions := pre ++
             { s with
                 computedRewards := (uids.zip rewards).map
                   (fun ur => { minerUid := ur.1, score := ur.2, timestamp := σ.now })
                 metrics := batchMetrics uids rewards } :: post
           rewardUpdates := σ.rewardUpdates ++
             [{ updateId := σ.nextId, sessionId := sid, minerUids := uids,
                rewards := rewards, timestamp := σ.now, confirmed := false }]
           nextId := σ.nextId + 1 }) := by
  have hsb : (s.sessionId == sid) = true := by simp [hs]
  have hfind := find?_append_first (fun t => t.sessionId == sid) pre s post hpre hsb
  have hupd := updFirst_append_first (fun t => t.sessionId == sid)
    (fun t =>
      { t with
          computedRewards := (uids.zip rewards).map
            (fun ur => { minerUid := ur.1, score := ur.2, timestamp := σ.now })
          metrics := batchMetrics uids rewards })
    pre s post hpre hsb
  simp only [recordRewardsBatch, hlen, ne_eq, not_true_eq_false, if_false, hsplit,
    hfind, hupd]

/-- C2: a batch rewards update on an existing session with equal-length
nonempty arrays replaces computedRewards by the zipped triples and sets
successRate to the success fraction times one hundred, averageRewardScore
to the arithmetic mean, and failureCount to the number of non-positive
rewards. -/
theorem recordRewardsBatch_metrics_spec (σ : Store) (sid : Nat)
    (uids rewards : List ℚ) (pre post : List SessionDoc) (s : SessionDoc)
    (hlen : uids.length = rewards.length)
    (hn : 1 ≤ uids.length)
    (hsplit : σ.sessions = pre ++ s :: post)
    (hpre : ∀ t ∈ pre, (t.sessionId == sid) = false)
    (hs : s.sessionId = sid) :
    recordRewardsBatch σ sid { minerUids := some uids, rewards := some rewards } =
      (ApiResult.ok,
       { σ with
           sessions := pre ++
             { s with
                 computedRewards := (uids.zip rewards).map
                   (fun ur => { minerUid := ur.1, score := ur.2, timestamp := σ.now })
                 metrics :=
                   { totalQueryTime := none
                     successRate := some (JsNum.num
                       ((((rewards.filter (fun r => decide (0 < r))).length : ℚ) /
                         (uids.length : ℚ)) * 100))
                     averageRewardScore := some (JsNum.num
                       ((rewards.foldl (· + ·) 0) / (uids.length : ℚ)))
                     failureCount := some (JsNum.num
                       ((uids.length : ℚ) -
                        ((rewards.filter (fun r => decide (0 < r))).length : ℚ)))
                     validFindings := none } } :: post
           rewardUpdates := σ.rewardUpdates ++
             [{ updateId := σ.nextId, sessionId := sid, minerUids := uids,
                rewards := rewards, timestamp := σ.now, confirmed := false }]
           nextId := σ.nextId + 1 }) := by
  have h := recordRewardsBatch_found σ sid uids rewards pre post s hlen hsplit hpre hs
  rw [h]
  have hne : ((uids.length : ℚ)) ≠ 0 := by
    exact_mod_cast Nat.pos_iff_ne_zero.mp (by omega)
  simp [batchMetrics, jsDivQ, jsMul, hne]

/-- C2 witness: on a store holding one session, the batch update with
uids [1, 2] and rewards [5, -1] succeeds, yields successRate 50, mean 2,
failureCount 1 and exactly two computed rewards. -/
theorem recordRewardsBatch_metrics_spec_witness :
    (recordRewardsBatch
        { sessions := [{ sessionId := 1, timestamp := 0, state := SessionState.pending,
                         sampledMinerCount := 2, sampledMinerUids := [1, 2] }],
          history := [], rewardUpdates := [], nextId := 2, now := 5 }
        1 { minerUids := some [1, 2], rewards := some [5, -1] }).1 = ApiResult.ok ∧
    ((recordRewardsBatch
        { sessions := [{ sessionId := 1, timestamp := 0, state := SessionState.pending,
                         sampledMinerCount := 2, sampledMinerUids := [1, 2] }],
          history := [], rewardUpdates := [], nextId := 2, now := 5 }
        1 { minerUids := some [1, 2], rewards := some [5, -1] }).2.sessions.map
      (fun t => (t.metrics.successRate, t.metrics.averageRewardScore,
                 t.metrics.failureCount, t.computedRewards.length))) =
      [(some (JsNum.num 50), some (JsNum.num 2), some (JsNum.num 1), 2)] := by
  have h := recordRewardsBatch_metrics_spec
    { sessions := [{ sessionId := 1, timestamp := 0, state := SessionState.pending,
                     sampledMinerCount := 2, sampledMinerUids := [1, 2] }],
      history := [], rewardUpdates := [], nextId := 2, now := 5 }
    1 [1, 2] [5, -1] [] []
    { sessionId := 1, timestamp := 0, state := SessionState.pending,
      sampledMinerCount := 2, sampledMinerUids := [1, 2] }
    rfl (by decide) rfl (by simp) rfl
  rw [h]
  refine ⟨rfl, ?_⟩
  norm_num [List.filter]

/-- C9: a successful batch rewards update replaces the metrics object in
its entirety: only successRate, averageRewardScore and failureCount are
present afterwards, and any previously stored totalQueryTime or
validFindings value is erased, whatever it was. -/
theorem rewardsBatch_metrics_wholesale (σ : Store) (sid : Nat)
    (uids rewards : List ℚ) (pre post : List SessionDoc) (s : SessionDoc)
    (hlen : uids.length = rewards.length)
    (hsplit : σ.sessions = pre ++ s :: post)
    (hpre : ∀ t ∈ pre, (t.sessionId == sid) = false)
    (hs : s.sessionId = sid) :
    (recordRewardsBatch σ sid
        { minerUids := some uids, rewards := some rewards }).2.sessions =
      pre ++
        { s with
            computedRewards := (uids.zip rewards).map
              (fun ur => { minerUid := ur.1, score := ur.2, timestamp := σ.now })
            metrics :=
              { totalQueryTime := none
                successRate := some (jsMul
                  (jsDivQ ((rewards.filter (fun r => decide (0 < r))).length : ℚ)
                    (uids.length : ℚ)) 100)
                averageRewardScore := some (jsDivQ (rewards.foldl (· + ·) 0)
                  (uids.length : ℚ))
                failureCount := some (JsNum.num
                  ((uids.length : ℚ) -
                   ((rewards.filter (fun r => decide (0 < r))).length : ℚ)))
                validFindings := none } } :: post := by
  have h := recordRewardsBatch_found σ sid uids rewards pre post s hlen hsplit hpre hs
  rw [h]
  simp [batchMetrics]

/-- C9 witness: a session whose metrics held totalQueryTime and
validFindings loses both in the batch update. -/
theorem rewardsBatch_metrics_wholesale_witness :
    ((recordRewardsBatch
        { sessions := [{ sessionId := 1, timestamp := 0, state := SessionState.completed,
                         sampledMinerCount := 1, sampledMinerUids := [1],
                         metrics := { totalQueryTime := some (JsNum.num 7),
                                      validFindings := some (JsNum.num 3) } }],
          history := [], rewardUpdates := [], nextId := 2, now := 5 }
        1 { minerUids := some [1], rewards := some [4] }).2.sessions.map
      (fun t => (t.metrics.totalQueryTime, t.metrics.validFindings))) = [(none, none)] := by
  have h := rewardsBatch_metrics_wholesale
    { sessions := [{ sessionId := 1, timestamp := 0, state := SessionState.completed,
                     sampledMinerCount := 1, sampledMinerUids := [1],
                     metrics := { totalQueryTime := some (JsNum.num 7),
                                  validFindings := some (JsNum.num 3) } }],
      history := [], rewardUpdates := [], nextId := 2, now := 5 }
    1 [1] [4] [] []
    { sessionId := 1, timestamp := 0, state := SessionState.completed,
      sampledMinerCount := 1, sampledMinerUids := [1],
      metrics := { totalQueryTime := some (JsNum.num 7),
                   validFindings := some (JsNum.num 3) } }
    rfl rfl (by simp) rfl
  rw [h]
  simp

/-- C10: a batch rewards update with two empty arrays on an existing
session passes validation and succeeds: the RewardUpdate log entry is
written, computedRewards becomes empty, failureCount is zero, and
successRate and averageRewardScore are the not-a-number results of
dividing zero by the zero array length. -/
theorem rewardsBatch_empty_arrays (σ : Store) (sid : Nat)
    (pre post : List SessionDoc) (s : SessionDoc)
    (hsplit : σ.sessions = pre ++ s :: post)
    (hpre : ∀ t ∈ pre, (t.sessionId == sid) = false)
    (hs : s.sessionId = sid) :
    recordRewardsBatch σ sid { minerUids := some [], rewards := some [] } =
      (ApiResult.ok,
       { σ with
           sessions := pre ++
             { s with
                 computedRewards := []
                 metrics :=
                   { totalQueryTime := none
                     successRate := some JsNum.nan
                     averageRewardScore := some JsNum.nan
                     failureCount := some (JsNum.num 0)
                     validFindings := none } } :: post
           rewardUpdates := σ.rewardUpdates ++
             [{ updateId := σ.nextId, sessionId := sid, minerUids := [],
                rewards := [], timestamp := σ.now, confirmed := false }]
           nextId := σ.nextId + 1 }) := by
  have h := recordRewardsBatch_found σ sid [] [] pre post s rfl hsplit hpre hs
  rw [h]
  norm_num [batchMetrics, jsDivQ, jsMul]

/-- C10 witness: the empty batch update on a concrete one-session store. -/
theorem rewardsBatch_empty_arrays_witness :
    ((recordRewardsBatch
        { sessions := [{ sessionId := 1, timestamp := 0, state := SessionState.pending,
                         sampledMinerCount := 1, sampledMinerUids := [1] }],
          history := [], rewardUpdates := [], nextId := 2, now := 5 }
        1 { minerUids := some [], rewards := some [] }).1 = ApiResult.ok) ∧
    ((recordRewardsBatch
        { sessions := [{ sessionId := 1, timestamp := 0, state := SessionState.pending,
                         sampledMinerCount := 1, sampledMinerUids := [1] }],
          history := [], rewardUpdates := [], nextId := 2, now := 5 }
        1 { minerUids := some [], rewards := some [] }).2.sessions.map
      (fun t => (t.metrics.successRate, t.metrics.averageRewardScore,
                 t.metrics.failureCount, t.computedRewards))) =
      [(some JsNum.nan, some JsNum.nan, some (JsNum.num 0), [])] ∧
    ((recordRewardsBatch
        { sessions := [{ sessionId := 1, timestamp := 0, state := SessionState.pending,
                         sampledMinerCount := 1, sampledMinerUids := [1] }],
          history := [], rewardUpdates := [], nextId := 2, now := 5 }
        1 { minerUids := some [], rewards := some [] }).2.rewardUpdates.length = 1) := by
  have h := rewardsBatch_empty_arrays
    { sessions := [{ sessionId := 1, timestamp := 0, state := SessionState.pending,
                     sampledMinerCount := 1, sampledMinerUids := [1] }],
      history := [], rewardUpdates := [], nextId := 2, now := 5 }
    1 [] []
    { sessionId := 1, timestamp := 0, state := SessionState.pending,
      sampledMinerCount := 1, sampledMinerUids := [1] }
    rfl (by simp) rfl
  rw [h]
  refine ⟨rfl, by simp, rfl⟩

/-- The empty store with the generator and clock at zero. -/
def emptyStore : Store :=
  { sessions := [], history := [], rewardUpdates := [], nextId := 0, now := 0 }

/-- C4: when the session identifier matches no stored session, a valid
batch rewards update, subnet snapshot, or error log call still reports
success and leaves every session document untouched; the batch call still
writes its RewardUpdate log entry under a fresh update identifier. -/
theorem silent_noop_on_missing_session (σ : Store) (sid : Nat)
    (habsent : ∀ t ∈ σ.sessions, (t.sessionId == sid) = false) :
    (∀ uids rewards : List ℚ, uids.length = rewards.length →
        recordRewardsBatch σ sid { minerUids := some uids, rewards := some rewards } =
          (ApiResult.ok,
           { σ with
               rewardUpdates := σ.rewardUpdates ++
                 [{ updateId := σ.nextId, sessionId := sid, minerUids := uids,
                    rewards := rewards, timestamp := σ.now, confirmed := false }]
               nextId := σ.nextId + 1 }))
    ∧ ((∀ u ∈ σ.rewardUpdates, u.updateId < σ.nextId) →
        ∀ u ∈ σ.rewardUpdates, u.updateId ≠ σ.nextId)
    ∧ (∀ netuid block av am ts eb,
        recordSubnetSnapshot σ sid
          { netuid := some netuid, block := some block, activeValidators := av,
            activeMiners := am, totalStake := ts, emissionPerBlock := eb } =
          (ApiResult.ok, σ))
    ∧ (∀ stage message st, (stage == "") = false → (message == "") = false →
        logValidationError σ sid
          { stage := some stage, message := some message, stackTrace := st } =
          (ApiResult.ok, σ)) := by
  have hnone : σ.sessions.find? (fun t => t.sessionId == sid) = none := by
    rw [List.find?_eq_none]
    intro t ht
    simp [habsent t ht]
  have hupd : ∀ f, updFirst (fun t : SessionDoc => t.sessionId == sid) f σ.sessions =
      σ.sessions :=
    fun f => updFirst_eq_of_forall_not _ f σ.sessions habsent
  refine ⟨?_, ?_, ?_, ?_⟩
  · intro uids rewards hlen
    simp only [recordRewardsBatch, hlen, ne_eq, not_true_eq_false, if_false, hnone]
  · intro hlt u hu
    exact Nat.ne_of_lt (hlt u hu)
  · intro netuid block av am ts eb
    simp only [recordSubnetSnapshot, hupd]
  · intro stage message st h1 h2
    simp only [logValidationError, strFalsy, h1, h2, Bool.or_self, Bool.false_eq_true,
      if_false, hupd]

/-- C4 witness: against the empty store, all three calls succeed without
touching the (empty) session collection, and the batch call logs an update
with the fresh identifier zero. -/
theorem silent_noop_on_missing_session_witness :
    recordRewardsBatch emptyStore 1 { minerUids := some [1], rewards := some [2] } =
      (ApiResult.ok,
       { emptyStore with
           rewardUpdates := [{ updateId := 0, sessionId := 1, minerUids := [1],
                               rewards := [2], timestamp := 0, confirmed := false }]
           nextId := 1 }) ∧
    recordSubnetSnapshot emptyStore 1
      { netuid := some 1, block := some 2 } =
      (ApiResult.ok,
       emptyStore) ∧
    logValidationError emptyStore 1
      { stage := some "fetch", message := some "boom" } =
      (ApiResult.ok,
       emptyStore) := by
  have h := silent_noop_on_missing_session
    emptyStore 1
    (by simp [emptyStore])
  exact ⟨h.1 [1] [2] rfl, h.2.2.1 1 2 none none none none, h.2.2.2 "fetch" "boom" none rfl rfl⟩

/-- C8: when no session carries the requested project identifier, the
project summary reports zero runs, zero miners, a null last run, and an
average reward score that is the not-a-number result of dividing by the
zero session count. -/
theorem projectSummary_zero_sessions (σ : Store) (pid : String)
    (h : ∀ s ∈ σ.sessions, s.projectId ≠ some pid) :
    projectSummary σ pid =
      { totalValidationRuns := 0, successfulRuns := 0, failedRuns := 0,
        totalMinersQueried := 0, avgRewardScore := JsNum.nan, lastRun := none } := by
  have hf : σ.sessions.filter (fun s => s.projectId == some pid) = [] := by
    rw [List.filter_eq_nil_iff]
    intro s hs
    simp [h s hs]
  rw [projectSummary, hf]
  simp [sortDescBy, jsDivJ, jsDivQ]

/-- C8 witness: the empty store yields the zero summary with the
not-a-number average. -/
theorem projectSummary_zero_sessions_witness :
    projectSummary emptyStore "p" =
      { totalValidationRuns := 0, successfulRuns := 0, failedRuns := 0,
        totalMinersQueried := 0, avgRewardScore := JsNum.nan, lastRun := none } :=
  projectSummary_zero_sessions _ "p" (by simp [emptyStore])

/-- C5 counterexample: a sampledMinerUids array whose only element is the
non-integer number three halves is not rejected: the call succeeds and a
session is created, contradicting the claim that a sampledMinerUids value
that is not a sequence of integers fails with a validation error and
creates nothing. -/
theorem startValidation_accepts_noninteger :
    (startValidation emptyStore
      { sampledMinerUids := some [(3 : ℚ) / 2] }).1 = ApiResult.ok ∧
    (startValidation emptyStore
      { sampledMinerUids := some [(3 : ℚ) / 2] }).2.sessions.length = 1 ∧
    ¬ ∃ z : ℤ, (3 : ℚ) / 2 = (z : ℚ) := by
  refine ⟨rfl, rfl, ?_⟩
  rintro ⟨z, hz⟩
  rw [div_eq_iff (by norm_num : (2 : ℚ) ≠ 0)] at hz
  have hz2 : (3 : ℤ) = z * 2 := by exact_mod_cast hz
  omega

/-- C5 (amended): the creation endpoint rejects only a missing or
non-array sampledMinerUids (element types are not checked); on an array it
creates one new session with the fresh identifier, state pending and empty
minerResponses, computedRewards and validationErrors, defaulting
sampledMinerCount to the array length when no count is supplied. -/
theorem startValidation_spec_amended (σ : Store) (b : StartBody) :
    (b.sampledMinerUids = none →
        startValidation σ b = (ApiResult.validationFailed, σ))
    ∧ (∀ uids, b.sampledMinerUids = some uids →
        startValidation σ b =
          (ApiResult.ok,
           { σ with
               sessions := σ.sessions ++
                 [{ sessionId := σ.nextId
                    timestamp := σ.now
                    state := SessionState.pending
                    sampledMinerCount :=
                      match b.sampledMinerCount with
                      | some c => if c = 0 then (uids.length : ℚ) else c
                      | none => (uids.length : ℚ)
                    sampledMinerUids := uids
                    minerResponses := []
                    computedRewards := []
                    validationErrors := []
                    metadata := { validatorAddress := b.validatorAddress
                                  configVersion := b.configVersion } }]
               nextId := σ.nextId + 1 }))
    ∧ ((∀ t ∈ σ.sessions, t.sessionId < σ.nextId) →
        ∀ t ∈ σ.sessions, t.sessionId ≠ σ.nextId) := by
  refine ⟨?_, ?_, ?_⟩
  · intro h
    simp [startValidation, h]
  · intro uids h
    simp [startValidation, h]
  · intro hlt t ht
    exact Nat.ne_of_lt (hlt t ht)

/-- C5 witness: creating a session with uids one, two, three and no
supplied count stores count three, state pending and empty arrays. -/
theorem startValidation_spec_amended_witness :
    startValidation { emptyStore with nextId := 7, now := 4 }
      { sampledMinerUids := some [1, 2, 3] } =
      (ApiResult.ok,
       { sessions := [{ sessionId := 7, timestamp := 4,
                        state := SessionState.pending,
                        sampledMinerCount := 3, sampledMinerUids := [1, 2, 3] }],
         history := [], rewardUpdates := [], nextId := 8, now := 4 }) := by
  have h := (startValidation_spec_amended
    { emptyStore with nextId := 7, now := 4 }
    { sampledMinerUids := some [1, 2, 3] }).2.1 [1, 2, 3] rfl
  rw [h]
  norm_num [emptyStore]

/-- C1: recording a miner reward fails with not-found and changes nothing
when no session holds a response of that miner; otherwise it succeeds,
patches rewardScore and rewardReason on exactly the first matching
response entry of the first matching session, leaves every other response
entry and every other field untouched, and appends exactly one history
entry whose status is success exactly when the reward score is positive. -/
theorem recordMinerReward_spec (σ : Store) (sid : Nat) (uid score : ℚ)
    (reason : String) :
    ((∀ t ∈ σ.sessions, rewardQuery sid uid t = false) →
        recordMinerReward σ sid
          { minerUid := some uid, rewardScore := score, rewardReason := some reason } =
          (ApiResult.notFound, σ))
    ∧ (∀ pre s post rpre r rpost,
        σ.sessions = pre ++ s :: post →
        (∀ t ∈ pre, rewardQuery sid uid t = false) →
        s.sessionId = sid →
        s.minerResponses = rpre ++ r :: rpost →
        (∀ q ∈ rpre, (q.minerUid == uid) = false) →
        r.minerUid = uid →
        recordMinerReward σ sid
          { minerUid := some uid, rewardScore := score, rewardReason := some reason } =
          (ApiResult.ok,
           { σ with
               sessions := pre ++
                 { s with minerResponses := rpre ++
                     { r with rewardScore := some score,
                              rewardReason := some reason } :: rpost } :: post
               history := σ.history ++
                 [{ minerUid := uid, sessionId := sid, rewardScore := score,
                    timestamp := σ.now,
                    status := if 0 < score then HistoryStatus.success
                              else HistoryStatus.failed }] })) := by
  constructor
  · intro h
    have hnone : σ.sessions.find? (rewardQuery sid uid) = none := by
      rw [List.find?_eq_none]
      intro t ht
      simp [h t ht]
    simp only [recordMinerReward, hnone]
  · intro pre s post rpre r rpost hsplit hpre hs hresp hrpre hr
    have hqs : rewardQuery sid uid s = true := by
      simp [rewardQuery, hs, hresp, hr]
    have hfind := find?_append_first (rewardQuery sid uid) pre s post hpre hqs
    have hinner := updFirst_append_first (fun q => q.minerUid == uid)
      (fun q =>
        { q with rewardScore := some score,
                 rewardReason := setOpt (some reason) q.rewardReason })
      rpre r rpost hrpre (by simp [hr])
    have houter := updFirst_append_first (rewardQuery sid uid)
      (fun t => { t with minerResponses := updFirst (fun q => q.minerUid == uid) (fun q => { q with rewardScore := some score, rewardReason := setOpt (some reason) q.rewardReason }) t.minerResponses })
      pre s post hpre hqs
    simp only [recordMinerReward, hsplit, hfind, houter, hresp, hinner]
    simp only [setOpt]

/-- C1 witness: a store with one session holding two responses of the same
miner; the patch lands on the first response only and one history entry
with status success is appended. -/
theorem recordMinerReward_spec_witness :
    recordMinerReward
      { sessions := [{ sessionId := 1, timestamp := 0,
                       state := SessionState.inProgress,
                       sampledMinerCount := 1, sampledMinerUids := [4],
                       minerResponses := [{ minerUid := 4, timestamp := 2 },
                                          { minerUid := 4, timestamp := 3 }] }],
        history := [], rewardUpdates := [], nextId := 2, now := 9 }
      1 { minerUid := some 4, rewardScore := 6, rewardReason := some "good" } =
      (ApiResult.ok,
       { sessions := [{ sessionId := 1, timestamp := 0,
                        state := SessionState.inProgress,
                        sampledMinerCount := 1, sampledMinerUids := [4],
                        minerResponses := [{ minerUid := 4, timestamp := 2,
                                             rewardScore := some 6,
                                             rewardReason := some "good" },
                                           { minerUid := 4, timestamp := 3 }] }],
         history := [{ minerUid := 4, sessionId := 1, rewardScore := 6,
                       timestamp := 9, status := HistoryStatus.success }],
         rewardUpdates := [], nextId := 2, now := 9 }) := by
  have h := (recordMinerReward_spec
    { sessions := [{ sessionId := 1, timestamp := 0,
                     state := SessionState.inProgress,
                     sampledMinerCount := 1, sampledMinerUids := [4],
                     minerResponses := [{ minerUid := 4, timestamp := 2 },
                                        { minerUid := 4, timestamp := 3 }] }],
      history := [], rewardUpdates := [], nextId := 2, now := 9 }
    1 4 6 "good").2
    [] _ [] [] { minerUid := 4, timestamp := 2 } [{ minerUid := 4, timestamp := 3 }]
    rfl (by simp) rfl rfl (by simp) rfl
  rw [h]
  norm_num

/-- C6: completing a session fails with not-found when the session is
absent; otherwise the state becomes completed and each metric sub-field
present in the request overwrites the stored value while each omitted
sub-field keeps its previously stored value. -/
theorem completeValidation_patch_spec (σ : Store) (sid : Nat) (b : CompleteBody) :
    ((∀ t ∈ σ.sessions, (t.sessionId == sid) = false) →
        completeValidation σ sid b = (ApiResult.notFound, σ))
    ∧ (∀ pre s post,
        σ.sessions = pre ++ s :: post →
        (∀ t ∈ pre, (t.sessionId == sid) = false) →
        s.sessionId = sid →
        completeValidation σ sid b =
          (ApiResult.ok,
           { σ with sessions := pre ++
               { s with
                   state := SessionState.completed
                   metrics :=
                     { totalQueryTime :=
                         match b.totalQueryTime with
                         | some v => some (JsNum.num v)
                         | none => s.metrics.totalQueryTime
                       averageRewardScore :=
                         match b.averageRewardScore with
                         | some v => some (JsNum.num v)
                         | none => s.metrics.averageRewardScore
                       successRate :=
                         match b.successRate with
                         | some v => some (JsNum.num v)
                         | none => s.metrics.successRate
                       failureCount :=
                         match b.failureCount with
                         | some v => some (JsNum.num v)
                         | none => s.metrics.failureCount
                       validFindings :=
                         match b.validFindings with
                         | some v => some (JsNum.num v)
                         | none => s.metrics.validFindings } } :: post })) := by
  constructor
  · intro h
    have hnone : σ.sessions.find? (fun t => t.sessionId == sid) = none := by
      rw [List.find?_eq_none]
      intro t ht
      simp [h t ht]
    simp only [completeValidation, hnone]
  · intro pre s post hsplit hpre hs
    have hsb : (s.sessionId == sid) = true := by simp [hs]
    have hfind := find?_append_first (fun t => t.sessionId == sid) pre s post hpre hsb
    have hupd := updFirst_append_first (fun t => t.sessionId == sid)
      (fun t =>
        { t with
            state := SessionState.completed
            metrics :=
              { totalQueryTime := setMet b.totalQueryTime t.metrics.totalQueryTime
                averageRewardScore := setMet b.averageRewardScore t.metrics.averageRewardScore
                successRate := setMet b.successRate t.metrics.successRate
                failureCount := setMet b.failureCount t.metrics.failureCount
                validFindings := setMet b.validFindings t.metrics.validFindings } })
      pre s post hpre hsb
    simp only [completeValidation, hsplit, hfind, hupd]
    simp only [setMet]

/-- C6 witness: completing a session that stored totalQueryTime nine and
successRate ten with a request supplying only averageRewardScore four
keeps the two stored fields and overwrites the supplied one. -/
theorem completeValidation_patch_spec_witness :
    completeValidation
      { sessions := [{ sessionId := 1, timestamp := 0,
                       state := SessionState.inProgress,
                       sampledMinerCount := 1, sampledMinerUids := [4],
                       metrics := { totalQueryTime := some (JsNum.num 9),
                                    successRate := some (JsNum.num 10) } }],
        history := [], rewardUpdates := [], nextId := 2, now := 9 }
      1 { averageRewardScore := some 4 } =
      (ApiResult.ok,
       { sessions := [{ sessionId := 1, timestamp := 0,
                        state := SessionState.completed,
                        sampledMinerCount := 1, sampledMinerUids := [4],
                        metrics := { totalQueryTime := some (JsNum.num 9),
                                     averageRewardScore := some (JsNum.num 4),
                                     successRate := some (JsNum.num 10) } }],
         history := [], rewardUpdates := [], nextId := 2, now := 9 }) := by
  have h := (completeValidation_patch_spec
    { sessions := [{ sessionId := 1, timestamp := 0,
                     state := SessionState.inProgress,
                     sampledMinerCount := 1, sampledMinerUids := [4],
                     metrics := { totalQueryTime := some (JsNum.num 9),
                                  successRate := some (JsNum.num 10) } }],
      history := [], rewardUpdates := [], nextId := 2, now := 9 }
    1 { averageRewardScore := some 4 }).2
    [] _ [] rfl (by simp) rfl
  rw [h]
  rfl

/-- C7: leaderboard entries carry dense ranks assigned by position
starting at one, are sorted by total reward descending, come from exactly
the per-miner groups of the in-window history entries (the sort permutes
the groups), and are truncated to at most the limit. -/
theorem leaderboard_ranks_spec (hist : List MinerHistoryDoc) (startDate limit : Nat) :
    (∀ k (hk : k < (leaderboard hist startDate limit).length),
        ((leaderboard hist startDate limit).get ⟨k, hk⟩).rank = k + 1)
    ∧ (leaderboard hist startDate limit).Pairwise
        (fun a b => b.totalRewards ≤ a.totalRewards)
    ∧ (sortDescBy (fun g => g.totalRewards)
        (groupHistory (hist.filter (fun d => startDate ≤ d.timestamp)))).Perm
        (groupHistory (hist.filter (fun d => startDate ≤ d.timestamp)))
    ∧ (leaderboard hist startDate limit).length =
        min limit (groupHistory (hist.filter (fun d => startDate ≤ d.timestamp))).length := by
  refine ⟨?_, ?_, ?_, ?_⟩
  · intro k hk
    have h := withRanks_rank (leaderboardAgg hist startDate limit) 0 k hk
    simpa using h
  · have hp := pairwise_sortDescBy (fun g : LeaderGroup => g.totalRewards)
      (groupHistory (hist.filter (fun d => startDate ≤ d.timestamp)))
    have ht : (leaderboardAgg hist startDate limit).Pairwise
        (fun a b => b.totalRewards ≤ a.totalRewards) :=
      List.Pairwise.sublist (List.take_sublist _ _) hp
    exact pairwise_withRanks _ ht 0
  · exact perm_sortDescBy _ _
  · rw [leaderboard, withRanks_length, leaderboardAgg, List.length_take,
      (perm_sortDescBy _ _).length_eq]

/-- C7 witness: a history with two miners in the window gives a sorted,
permuting, length-two leaderboard. -/
theorem leaderboard_ranks_spec_witness :
    (leaderboard
        [{ minerUid := 1, sessionId := 1, rewardScore := 5, timestamp := 10,
           status := HistoryStatus.success },
         { minerUid := 2, sessionId := 1, rewardScore := 7, timestamp := 10,
           status := HistoryStatus.failed }] 0 10).Pairwise
      (fun a b => b.totalRewards ≤ a.totalRewards) ∧
    (leaderboard
        [{ minerUid := 1, sessionId := 1, rewardScore := 5, timestamp := 10,
           status := HistoryStatus.success },
         { minerUid := 2, sessionId := 1, rewardScore := 7, timestamp := 10,
           status := HistoryStatus.failed }] 0 10).length =
      min 10 (groupHistory
        (List.filter (fun d => 0 ≤ d.timestamp)
          [{ minerUid := 1, sessionId := 1, rewardScore := 5, timestamp := 10,
             status := HistoryStatus.success },
           { minerUid := 2, sessionId := 1, rewardScore := 7, timestamp := 10,
             status := HistoryStatus.failed }])).length :=
  ⟨(leaderboard_ranks_spec _ 0 10).2.1, (leaderboard_ranks_spec _ 0 10).2.2.2⟩

theorem get_congr_of_eq {l l' : List α} (h : l = l') (i : Nat) (hi : i < l.length)
    (hi' : i < l'.length) : l.get ⟨i, hi⟩ = l'.get ⟨i, hi'⟩ := by
  subst h
  rfl

theorem get_append_left_nat {l l' : List α} (i : Nat) (hi : i < l.length)
    (hi2 : i < (l ++ l').length) : (l ++ l').get ⟨i, hi2⟩ = l.get ⟨i, hi⟩ := by
  induction l generalizing i with
  | nil => exact absurd hi (Nat.not_lt_zero i)
  | cons x xs ih =>
      cases i with
      | zero => rfl
      | succ n =>
          have hn : n < xs.length := Nat.lt_of_succ_lt_succ hi
          have hn2 : n < (xs ++ l').length := Nat.lt_of_succ_lt_succ (by simpa using hi2)
          simpa using ih n hn hn2

/-- Every operation leaves the session list unchanged, appends one pending
session, or rewrites the first session matching some predicate with a
function that preserves the state, sets it in-progress (challenge only) or
sets it completed. -/
theorem applyOp_sessions_shape (σ : Store) (op : Op) :
    (applyOp σ op).2.sessions = σ.sessions ∨
    (∃ d : SessionDoc, d.state = SessionState.pending ∧
        (applyOp σ op).2.sessions = σ.sessions ++ [d]) ∨
    (∃ (p : SessionDoc → Bool) (f : SessionDoc → SessionDoc),
        (applyOp σ op).2.sessions = updFirst p f σ.sessions ∧
        ((∀ s, (f s).state = s.state) ∨
         (op.isChallenge = true ∧ ∀ s, (f s).state = SessionState.inProgress) ∨
         (∀ s, (f s).state = SessionState.completed))) := by
  cases op with
  | start b =>
      cases hb : b.sampledMinerUids with
      | none => left; simp [applyOp, startValidation, hb]
      | some uids =>
          simp only [applyOp, startValidation, hb]
          exact Or.inr (Or.inl ⟨_, rfl, rfl⟩)
  | challenge sid b =>
      by_cases hp : strFalsy b.projectId
      · left; simp [applyOp, recordChallenge, hp]
      · cases hf : σ.sessions.find? (fun s => s.sessionId == sid) with
        | none => left; simp [applyOp, recordChallenge, hp, hf]
        | some s =>
            simp only [applyOp, recordChallenge, hp, Bool.false_eq_true, if_false, hf]
            exact Or.inr (Or.inr ⟨_, _, rfl, Or.inr (Or.inl ⟨rfl, fun t => rfl⟩)⟩)
  | groundTruth sid b =>
      cases hf : σ.sessions.find? (fun s => s.sessionId == sid) with
      | none => left; simp [applyOp, recordGroundTruth, hf]
      | some s =>
          simp only [applyOp, recordGroundTruth, hf]
          exact Or.inr (Or.inr ⟨_, _, rfl, Or.inl (fun t => rfl)⟩)
  | minerResponse sid b =>
      cases hb : b.minerUid with
      | none => left; simp [applyOp, recordMinerResponse, hb]
      | some uid =>
          cases hf : σ.sessions.find? (fun s => s.sessionId == sid) with
          | none => left; simp [applyOp, recordMinerResponse, hb, hf]
          | some s =>
              simp only [applyOp, recordMinerResponse, hb, hf]
              exact Or.inr (Or.inr ⟨_, _, rfl, Or.inl (fun t => rfl)⟩)
  | minerReward sid b =>
      cases hb : b.minerUid with
      | none => left; simp [applyOp, recordMinerReward, hb]
      | some uid =>
          cases hf : σ.sessions.find? (rewardQuery sid uid) with
          | none => left; simp [applyOp, recordMinerReward, hb, hf]
          | some s =>
              simp only [applyOp, recordMinerReward, hb, hf]
              exact Or.inr (Or.inr ⟨_, _, rfl, Or.inl (fun t => rfl)⟩)
  | rewardsBatch sid b =>
      cases hu : b.minerUids with
      | none => left; simp [applyOp, recordRewardsBatch, hu]
      | some uids =>
          cases hr : b.rewards with
          | none => left; simp [applyOp, recordRewardsBatch, hu, hr]
          | some rewards =>
              by_cases hlen : uids.length ≠ rewards.length
              · left; simp [applyOp, recordRewardsBatch, hu, hr, hlen]
              · cases hf : σ.sessions.find? (fun s => s.sessionId == sid) with
                | none => left; simp [applyOp, recordRewardsBatch, hu, hr, hlen, hf]
                | some s =>
                    simp only [applyOp, recordRewardsBatch, hu, hr, hlen, ne_eq,
                      not_false_eq_true, if_false, hf]
                    exact Or.inr (Or.inr ⟨_, _, rfl, Or.inl (fun t => rfl)⟩)
  | subnetSnapshot sid b =>
      cases hn : b.netuid with
      | none => left; simp [applyOp, recordSubnetSnapshot, hn]
      | some netuid =>
          cases hbl : b.block with
          | none => left; simp [applyOp, recordSubnetSnapshot, hn, hbl]
          | some block =>
              simp only [applyOp, recordSubnetSnapshot, hn, hbl]
              exact Or.inr (Or.inr ⟨_, _, rfl, Or.inl (fun t => rfl)⟩)
  | logError sid b =>
      by_cases hv : strFalsy b.stage || strFalsy b.message
      · left; simp [applyOp, logValidationError, hv]
      · simp only [applyOp, logValidationError, hv, Bool.false_eq_true, if_false]
        exact Or.inr (Or.inr ⟨_, _, rfl, Or.inl (fun t => rfl)⟩)
  | complete sid b =>
      cases hf : σ.sessions.find? (fun s => s.sessionId == sid) with
      | none => left; simp [applyOp, completeValidation, hf]
      | some s =>
          simp only [applyOp, completeValidation, hf]
          exact Or.inr (Or.inr ⟨_, _, rfl, Or.inr (Or.inr (fun t => rfl))⟩)

/-- C3 (amended): no operation moves any stored session back to pending,
and every operation except recordChallenge preserves a completed state;
recordChallenge is the exception, since it sets the state to in-progress
unconditionally. -/
theorem state_monotonicity_amended (σ : Store) (op : Op) (i : Nat)
    (hi : i < σ.sessions.length) (hi' : i < (applyOp σ op).2.sessions.length) :
    (op.isChallenge = false →
        (σ.sessions.get ⟨i, hi⟩).state = SessionState.completed →
        ((applyOp σ op).2.sessions.get ⟨i, hi'⟩).state = SessionState.completed)
    ∧ (((applyOp σ op).2.sessions.get ⟨i, hi'⟩).state = SessionState.pending →
        (σ.sessions.get ⟨i, hi⟩).state = SessionState.pending) := by
  rcases applyOp_sessions_shape σ op with h | ⟨d, hd, h⟩ | ⟨p, f, h, hf⟩
  · have he : (applyOp σ op).2.sessions.get ⟨i, hi'⟩ = σ.sessions.get ⟨i, hi⟩ :=
      get_congr_of_eq h i hi' hi
    rw [he]
    exact ⟨fun _ hc => hc, fun hp => hp⟩
  · have hi2 : i < (σ.sessions ++ [d]).length := by rw [← h]; exact hi'
    have he : (applyOp σ op).2.sessions.get ⟨i, hi'⟩ = σ.sessions.get ⟨i, hi⟩ := by
      rw [get_congr_of_eq h i hi' hi2]
      exact get_append_left_nat i hi hi2
    rw [he]
    exact ⟨fun _ hc => hc, fun hp => hp⟩
  · have hi2 : i < (updFirst p f σ.sessions).length := by rw [← h]; exact hi'
    have he : (applyOp σ op).2.sessions.get ⟨i, hi'⟩ =
        (updFirst p f σ.sessions).get ⟨i, hi2⟩ := get_congr_of_eq h i hi' hi2
    rcases updFirst_get p f σ.sessions i hi hi2 with heq | heq
    · rw [he, heq]
      exact ⟨fun _ hc => hc, fun hp => hp⟩
    · rcases hf with hpres | ⟨hch, hinprog⟩ | hcomp
      · rw [he, heq, hpres]
        exact ⟨fun _ hc => hc, fun hp => hp⟩
      · constructor
        · intro hop _
          rw [hop] at hch
          exact absurd hch (by simp)
        · intro hp2
          rw [he, heq, hinprog] at hp2
          exact absurd hp2 (by simp)
      · constructor
        · intro _ _
          rw [he, heq, hcomp]
        · intro hp2
          rw [he, heq, hcomp] at hp2
          exact absurd hp2 (by simp)

/-- C3 witness: completing an already completed session keeps it
completed, through the monotonicity theorem. -/
theorem state_monotonicity_amended_witness :
    ((applyOp
        { sessions := [{ sessionId := 1, timestamp := 0,
                         state := SessionState.completed,
                         sampledMinerCount := 0, sampledMinerUids := [] }],
          history := [], rewardUpdates := [], nextId := 2, now := 3 }
        (Op.complete 1 {})).2.sessions.map (fun s => s.state)) =
      [SessionState.completed] := by
  have h := (state_monotonicity_amended
    { sessions := [{ sessionId := 1, timestamp := 0, state := SessionState.completed,
                     sampledMinerCount := 0, sampledMinerUids := [] }],
      history := [], rewardUpdates := [], nextId := 2, now := 3 }
    (Op.complete 1 {}) 0 (by decide) (by decide)).1 rfl rfl
  revert h
  decide

/-- C3 counterexample: recordChallenge on a completed session moves it to
in-progress, so a completed session can be re-opened, contrary to the
claim that no operation changes a completed state. -/
theorem completed_reopened_by_challenge :
    ((recordChallenge
        { sessions := [{ sessionId := 1, timestamp := 0,
                         state := SessionState.completed,
                         sampledMinerCount := 0, sampledMinerUids := [] }],
          history := [], rewardUpdates := [], nextId := 2, now := 3 }
        1 { projectId := some "p" }).2.sessions.map (fun s => s.state)) =
      [SessionState.inProgress] ∧
    (recordChallenge
        { sessions := [{ sessionId := 1, timestamp := 0,
                         state := SessionState.completed,
                         sampledMinerCount := 0, sampledMinerUids := [] }],
          history := [], rewardUpdates := [], nextId := 2, now := 3 }
        1 { projectId := some "p" }).1 = ApiResult.ok := by
  constructor
  · rfl
  · rfl
